import Mathlib

/-!
Shallow embedding of the comm core of `src/graphlab/comm/mpi_comm.cpp`
(the point-to-point messaging layer over an MPI-style all-to-all
transport), together with theorems settling the specification claims
about padding, framing, the send-side reservation protocol, the
receive-side reassembly, buffer reset, and the any-source receive.

Bytes are modelled as `Nat`, byte buffers as `List Nat`.  Machine
integers (`size_t`) are modelled as `Nat`; the places where C++
unsigned wrap-around could differ from `Nat` arithmetic are guarded by
explicit hypotheses in the theorems.
-/

/-- Size in bytes of the transport element type (`sizeof(double)` for
`MPI_SEND_TYPE = MPI_DOUBLE`, i.e. `send_type`). -/
def sendTypeSize : Nat := 8

/-- Size in bytes of the wire header `comm_header` (a single `size_t`
field `length`). -/
def headerSize : Nat := 8

/-- Embedding of `get_padded_length`: rounds `length` up to a multiple
of `sizeof(send_type)`, exactly as
`((length / sizeof(send_type)) + (length % sizeof(send_type) > 0)) * sizeof(send_type)`. -/
def get_padded_length (length : Nat) : Nat :=
  (length / sendTypeSize + (if length % sendTypeSize > 0 then 1 else 0)) * sendTypeSize

/-- Little-endian byte encoding of a natural number into `w` bytes,
modelling the in-memory representation of a `size_t` that `send`
copies byte-by-byte into the window. -/
def encodeLE : Nat → Nat → List Nat
  | 0, _ => []
  | w + 1, n => n % 256 :: encodeLE w (n / 256)

/-- Little-endian byte decoding, modelling reading a `size_t` back out
of a byte buffer (`sgetn` into a `comm_header`). -/
def decodeLE : List Nat → Nat
  | [] => 0
  | b :: rest => b + 256 * decodeLE rest

/-- Wire bytes of a `comm_header` whose `length` field is `length`. -/
def comm_header_bytes (length : Nat) : List Nat :=
  encodeLE headerSize length

/-- Embedding of `receive_buffer_type` (one per source peer): `buffer`
is the byte FIFO (`std::stringbuf`), `buflen` its tracked byte length,
`next_message_length` / `padded_next_message_length` the framing state. -/
structure receive_buffer_type where
  buffer : List Nat
  buflen : Nat
  next_message_length : Nat
  padded_next_message_length : Nat
deriving DecidableEq

/-- Embedding of `mpi_comm::locked_read_header_from_buffer`: when no
header has been consumed yet (`next_message_length == 0`) and at least
`sizeof(comm_header)` bytes are buffered, pop a header from the front
of the FIFO, record its length and padded length, and decrement
`buflen` by the header size. -/
def locked_read_header_from_buffer (curbuf : receive_buffer_type) :
    receive_buffer_type :=
  if curbuf.next_message_length = 0 ∧ headerSize ≤ curbuf.buflen then
    let header : Nat := decodeLE (curbuf.buffer.take headerSize)
    { buffer := curbuf.buffer.drop headerSize
      buflen := curbuf.buflen - headerSize
      next_message_length := header
      padded_next_message_length := get_padded_length header }
  else curbuf

/-- Embedding of `mpi_comm::insert_receive_buffer`: append the
delivered bytes to the FIFO, add to `buflen`, then try to consume a
header. -/
def insert_receive_buffer (curbuf : receive_buffer_type) (v : List Nat) :
    receive_buffer_type :=
  locked_read_header_from_buffer
    { curbuf with
      buffer := curbuf.buffer ++ v
      buflen := curbuf.buflen + v.length }

/-- Embedding of `mpi_comm::receive(int sourcemachine, size_t* length)`
on a single source buffer.  Returns the fast-path/slow-path result
(`none` models a NULL return; `some (ret, length)` models the malloc'd
buffer of `padded_next_message_length` bytes plus the reported unpadded
length) together with the buffer state afterwards.  Both the unlocked
fast-path test and the locked re-check are modelled. -/
def receive (curbuf : receive_buffer_type) :
    Option (List Nat × Nat) × receive_buffer_type :=
  if curbuf.padded_next_message_length = 0 ∨
     curbuf.buflen < curbuf.padded_next_message_length then
    (none, curbuf)
  else if 0 < curbuf.padded_next_message_length ∧
          curbuf.padded_next_message_length ≤ curbuf.buflen then
    let ret := curbuf.buffer.take curbuf.padded_next_message_length
    let drained : receive_buffer_type :=
      { buffer := curbuf.buffer.drop curbuf.padded_next_message_length
        buflen := curbuf.buflen - curbuf.padded_next_message_length
        next_message_length := 0
        padded_next_message_length := 0 }
    (some (ret, curbuf.next_message_length),
     locked_read_header_from_buffer drained)
  else (none, curbuf)

/-- Arithmetic description of `get_padded_length`: divisible by 8,
within 8 of `L` from above, zero only at zero. -/
theorem get_padded_length_spec (L : Nat) :
    get_padded_length L % 8 = 0 ∧
    L ≤ get_padded_length L ∧
    get_padded_length L < L + 8 ∧
    (get_padded_length L = 0 ↔ L = 0) := by
  unfold get_padded_length sendTypeSize
  split <;> omega

/-- Theorem C9: `get_padded_length L` is the least multiple of the
element size E = 8 that is at least `L`: it is divisible by 8,
satisfies `L ≤ result < L + 8`, and is 0 exactly when `L = 0`. -/
theorem C9_get_padded_length (L : Nat) :
    get_padded_length L % 8 = 0 ∧
    L ≤ get_padded_length L ∧
    get_padded_length L < L + 8 ∧
    (get_padded_length L = 0 ↔ L = 0) :=
  get_padded_length_spec L

/-- Operations an application or the flush engine performs on one
receive buffer: a scatter insert of delivered bytes, or a dequeue. -/
inductive recv_op where
  | insert (v : List Nat)
  | recv
deriving DecidableEq

/-- State transformer of a single receive-buffer operation. -/
def apply_recv_op (b : receive_buffer_type) : recv_op → receive_buffer_type
  | .insert v => insert_receive_buffer b v
  | .recv => (receive b).2

/-- Run a sequence of receive-buffer operations. -/
def run_recv_ops (b : receive_buffer_type) (ops : List recv_op) :
    receive_buffer_type :=
  ops.foldl apply_recv_op b

/-- Padded length of a message is zero exactly when the message length
is zero. -/
theorem get_padded_length_eq_zero (L : Nat) :
    get_padded_length L = 0 ↔ L = 0 :=
  (get_padded_length_spec L).2.2.2

/-- Reading a header preserves the I4 equivalence
`next_message_length = 0 ↔ padded_next_message_length = 0`. -/
theorem locked_read_header_I4 (b : receive_buffer_type)
    (h : b.next_message_length = 0 ↔ b.padded_next_message_length = 0) :
    ((locked_read_header_from_buffer b).next_message_length = 0 ↔
     (locked_read_header_from_buffer b).padded_next_message_length = 0) := by
  unfold locked_read_header_from_buffer
  split
  · exact (get_padded_length_eq_zero _).symm
  · exact h

/-- Case analysis on the buffer state a dequeue leaves behind: either
the buffer is untouched, or the padded message was drained from the
front and a further header consumption was attempted. -/
theorem receive_snd_cases (b : receive_buffer_type) :
    (receive b).2 = b ∨
    (receive b).2 = locked_read_header_from_buffer
      { buffer := b.buffer.drop b.padded_next_message_length
        buflen := b.buflen - b.padded_next_message_length
        next_message_length := 0
        padded_next_message_length := 0 } := by
  unfold receive
  split
  · exact Or.inl rfl
  · split
    · exact Or.inr rfl
    · exact Or.inl rfl

/-- Every single receive-buffer operation preserves the I4 equivalence. -/
theorem apply_recv_op_I4 (b : receive_buffer_type) (o : recv_op)
    (h : b.next_message_length = 0 ↔ b.padded_next_message_length = 0) :
    ((apply_recv_op b o).next_message_length = 0 ↔
     (apply_recv_op b o).padded_next_message_length = 0) := by
  cases o with
  | insert v =>
      exact locked_read_header_I4
        { b with buffer := b.buffer ++ v, buflen := b.buflen + v.length } h
  | recv =>
      show ((receive b).2.next_message_length = 0 ↔
            (receive b).2.padded_next_message_length = 0)
      rcases receive_snd_cases b with hc | hc
      · rw [hc]; exact h
      · rw [hc]
        exact locked_read_header_I4 _ Iff.rfl

/-- Theorem C6: invariant I4 is preserved by every receive-buffer
operation: starting from a buffer with `next_message_length = 0` and
`padded_next_message_length = 0`, after any sequence of inserts,
header consumptions and dequeues, `next_message_length = 0` holds iff
`padded_next_message_length = 0`; moreover whenever a header is
consumed, the `headerSize` header bytes are removed from the front of
the FIFO and `buflen` is decremented by `headerSize`. -/
theorem C6_I4_preserved (start : receive_buffer_type) (ops : List recv_op)
    (h0 : start.next_message_length = 0)
    (h1 : start.padded_next_message_length = 0) :
    ((run_recv_ops start ops).next_message_length = 0 ↔
     (run_recv_ops start ops).padded_next_message_length = 0) ∧
    (∀ b : receive_buffer_type, b.next_message_length = 0 →
      headerSize ≤ b.buflen →
      (locked_read_header_from_buffer b).buffer = b.buffer.drop headerSize ∧
      (locked_read_header_from_buffer b).buflen = b.buflen - headerSize) := by
  constructor
  · have key : ∀ (l : List recv_op) (b : receive_buffer_type),
        (b.next_message_length = 0 ↔ b.padded_next_message_length = 0) →
        ((run_recv_ops b l).next_message_length = 0 ↔
         (run_recv_ops b l).padded_next_message_length = 0) := by
      intro l
      induction l with
      | nil => intro b hb; exact hb
      | cons o rest ih =>
          intro b hb
          exact ih (apply_recv_op b o) (apply_recv_op_I4 b o hb)
    exact key ops start (by rw [h0, h1])
  · intro b hb hlen
    unfold locked_read_header_from_buffer
    rw [if_pos ⟨hb, hlen⟩]
    exact ⟨rfl, rfl⟩

/-- Witness for C6 at a concrete start state and operation list. -/
theorem C6_I4_preserved_witness :
    (receive_buffer_type.mk [] 0 0 0).next_message_length = 0 ∧
    (receive_buffer_type.mk [] 0 0 0).padded_next_message_length = 0 ∧
    (((run_recv_ops (receive_buffer_type.mk [] 0 0 0)
        [recv_op.insert [3, 0, 0, 0, 0, 0, 0, 0, 10, 11, 12, 0, 0, 0, 0, 0],
         recv_op.recv]).next_message_length = 0 ↔
      (run_recv_ops (receive_buffer_type.mk [] 0 0 0)
        [recv_op.insert [3, 0, 0, 0, 0, 0, 0, 0, 10, 11, 12, 0, 0, 0, 0, 0],
         recv_op.recv]).padded_next_message_length = 0) ∧
     (∀ b : receive_buffer_type, b.next_message_length = 0 →
       headerSize ≤ b.buflen →
       (locked_read_header_from_buffer b).buffer = b.buffer.drop headerSize ∧
       (locked_read_header_from_buffer b).buflen = b.buflen - headerSize)) :=
  ⟨rfl, rfl,
   C6_I4_preserved (receive_buffer_type.mk [] 0 0 0)
     [recv_op.insert [3, 0, 0, 0, 0, 0, 0, 0, 10, 11, 12, 0, 0, 0, 0, 0],
      recv_op.recv] rfl rfl⟩

/-- Theorem C7: `receive` on a source buffer returns `none` exactly
when no complete padded message is buffered
(`padded_next_message_length = 0` or it exceeds `buflen`); on success
it returns the first `padded_next_message_length` bytes of the FIFO
and reports the unpadded `next_message_length`, removes exactly those
bytes, decrements `buflen` by that amount, clears both framing fields,
and then attempts one further header consumption. -/
theorem C7_receive_contract (b : receive_buffer_type) :
    ((receive b).1 = none ↔
      (b.padded_next_message_length = 0 ∨
       b.buflen < b.padded_next_message_length)) ∧
    (0 < b.padded_next_message_length →
     b.padded_next_message_length ≤ b.buflen →
     receive b =
       (some (b.buffer.take b.padded_next_message_length,
              b.next_message_length),
        locked_read_header_from_buffer
          { buffer := b.buffer.drop b.padded_next_message_length
            buflen := b.buflen - b.padded_next_message_length
            next_message_length := 0
            padded_next_message_length := 0 })) := by
  constructor
  · unfold receive
    split
    · next hc => simp [hc]
    · next hc =>
        split
        · next => simp [hc]
        · next hc2 => exact absurd ⟨by omega, by omega⟩ hc2
  · intro h1 h2
    unfold receive
    rw [if_neg (by omega), if_pos ⟨h1, h2⟩]

/-- Witness for C7 on a buffer holding one complete padded message. -/
theorem C7_receive_contract_witness :
    0 < (receive_buffer_type.mk [1, 2, 3, 0, 0, 0, 0, 0] 8 3
          8).padded_next_message_length ∧
    (receive_buffer_type.mk [1, 2, 3, 0, 0, 0, 0, 0] 8 3
          8).padded_next_message_length ≤
      (receive_buffer_type.mk [1, 2, 3, 0, 0, 0, 0, 0] 8 3 8).buflen ∧
    receive (receive_buffer_type.mk [1, 2, 3, 0, 0, 0, 0, 0] 8 3 8) =
      (some ((receive_buffer_type.mk [1, 2, 3, 0, 0, 0, 0, 0] 8 3
                8).buffer.take
               (receive_buffer_type.mk [1, 2, 3, 0, 0, 0, 0, 0] 8 3
                8).padded_next_message_length,
             (receive_buffer_type.mk [1, 2, 3, 0, 0, 0, 0, 0] 8 3
               8).next_message_length),
       locked_read_header_from_buffer
         { buffer :=
             (receive_buffer_type.mk [1, 2, 3, 0, 0, 0, 0, 0] 8 3
               8).buffer.drop
               (receive_buffer_type.mk [1, 2, 3, 0, 0, 0, 0, 0] 8 3
                8).padded_next_message_length
           buflen :=
             (receive_buffer_type.mk [1, 2, 3, 0, 0, 0, 0, 0] 8 3
               8).buflen -
               (receive_buffer_type.mk [1, 2, 3, 0, 0, 0, 0, 0] 8 3
                8).padded_next_message_length
           next_message_length := 0
           padded_next_message_length := 0 }) :=
  ⟨by decide, by decide,
   (C7_receive_contract
       (receive_buffer_type.mk [1, 2, 3, 0, 0, 0, 0, 0] 8 3 8)).2
     (by decide) (by decide)⟩

/-- Theorem C10: consuming a header whose length field is 0 sets both
`next_message_length` and `padded_next_message_length` to 0, removes
the header bytes from the FIFO and decrements `buflen` by the header
size, and a subsequent `receive` returns no message for that frame:
the zero-length frame is silently skipped. -/
theorem C10_zero_length_header (b : receive_buffer_type)
    (h0 : b.next_message_length = 0)
    (h1 : headerSize ≤ b.buflen)
    (h2 : decodeLE (b.buffer.take headerSize) = 0) :
    (locked_read_header_from_buffer b).next_message_length = 0 ∧
    (locked_read_header_from_buffer b).padded_next_message_length = 0 ∧
    (locked_read_header_from_buffer b).buffer = b.buffer.drop headerSize ∧
    (locked_read_header_from_buffer b).buflen = b.buflen - headerSize ∧
    (receive (locked_read_header_from_buffer b)).1 = none := by
  have hgp : get_padded_length 0 = 0 := by decide
  unfold locked_read_header_from_buffer
  rw [if_pos ⟨h0, h1⟩]
  simp only [h2, hgp]
  refine ⟨trivial, trivial, trivial, trivial, ?_⟩
  unfold receive
  rw [if_pos (Or.inl rfl)]

/-- Witness for C10 on a buffer starting with an all-zero header. -/
theorem C10_zero_length_header_witness :
    (receive_buffer_type.mk [0, 0, 0, 0, 0, 0, 0, 0, 9, 9] 10 0
        0).next_message_length = 0 ∧
    headerSize ≤
      (receive_buffer_type.mk [0, 0, 0, 0, 0, 0, 0, 0, 9, 9] 10 0
        0).buflen ∧
    decodeLE
        ((receive_buffer_type.mk [0, 0, 0, 0, 0, 0, 0, 0, 9, 9] 10 0
          0).buffer.take headerSize) = 0 ∧
    ((locked_read_header_from_buffer
        (receive_buffer_type.mk [0, 0, 0, 0, 0, 0, 0, 0, 9, 9] 10 0
          0)).next_message_length = 0 ∧
     (locked_read_header_from_buffer
        (receive_buffer_type.mk [0, 0, 0, 0, 0, 0, 0, 0, 9, 9] 10 0
          0)).padded_next_message_length = 0 ∧
     (locked_read_header_from_buffer
        (receive_buffer_type.mk [0, 0, 0, 0, 0, 0, 0, 0, 9, 9] 10 0
          0)).buffer =
       (receive_buffer_type.mk [0, 0, 0, 0, 0, 0, 0, 0, 9, 9] 10 0
         0).buffer.drop headerSize ∧
     (locked_read_header_from_buffer
        (receive_buffer_type.mk [0, 0, 0, 0, 0, 0, 0, 0, 9, 9] 10 0
          0)).buflen =
       (receive_buffer_type.mk [0, 0, 0, 0, 0, 0, 0, 0, 9, 9] 10 0
         0).buflen - headerSize ∧
     (receive (locked_read_header_from_buffer
        (receive_buffer_type.mk [0, 0, 0, 0, 0, 0, 0, 0, 9, 9] 10 0
          0))).1 = none) :=
  ⟨rfl, by decide, by decide,
   C10_zero_length_header
     (receive_buffer_type.mk [0, 0, 0, 0, 0, 0, 0, 0, 9, 9] 10 0 0)
     rfl (by decide) (by decide)⟩

/-- Result of one `actual_send` reservation on a target slot: the
value returned to the caller and the new value of
`_sendlength[idx][targetmachine]`. -/
structure stage_result where
  sent : Nat
  counter : Nat
deriving DecidableEq

/-- Embedding of the reservation core of `mpi_comm::actual_send` on
the counter `_sendlength[idx][targetmachine]` (sequential view of the
CAS loop, whose CAS succeeds with the read value `old`): compute
`paddedlength`, grant `maxwrite = min(per-peer capacity − old,
paddedlength)`; if the grant is 0 return 0 leaving the counter
unchanged, else advance the counter by the grant and return
`min(maxwrite, length)`. -/
def actual_send (cap old length : Nat) : stage_result :=
  let paddedlength := get_padded_length length
  let maxwrite := min (cap - old) paddedlength
  if maxwrite = 0 then
    { sent := 0, counter := old }
  else
    { sent := min maxwrite length, counter := old + maxwrite }

/-- Embedding of `_max_sendlength_per_machine`:
`(send_window / size / sizeof(send_type)) * sizeof(send_type)`. -/
def per_peer_capacity (send_window size : Nat) : Nat :=
  send_window / size / sendTypeSize * sendTypeSize

/-- Ceiling expression `ceil(len/E)·E` used by the spec; shown equal
to `get_padded_length`. -/
theorem get_padded_length_eq_ceil (len : Nat) :
    get_padded_length len = (len + (sendTypeSize - 1)) / sendTypeSize * sendTypeSize := by
  unfold get_padded_length sendTypeSize
  split <;> omega

/-- Unfolded description of `actual_send` as a single conditional. -/
theorem actual_send_eq (cap old length : Nat) :
    actual_send cap old length =
      if min (cap - old) (get_padded_length length) = 0 then ⟨0, old⟩
      else ⟨min (min (cap - old) (get_padded_length length)) length,
            old + min (cap - old) (get_padded_length length)⟩ := rfl

/-- Theorem C4: for a reservation with `length > 0` read at counter
value `old ≤ cap`, the grant is `min(cap − old, ceil(len/E)·E)`, the
counter advances from `old` by the grant, the returned value is
`min(grant, len)`, and the call returns 0 exactly when the slot was
already at capacity, in which case the counter is unchanged. -/
theorem C4_actual_send_contract (cap old length : Nat)
    (hlen : 0 < length) (hold : old ≤ cap) :
    (actual_send cap old length).sent =
      min (min (cap - old) ((length + (sendTypeSize - 1)) / sendTypeSize * sendTypeSize))
        length ∧
    (actual_send cap old length).counter =
      old + min (cap - old) ((length + (sendTypeSize - 1)) / sendTypeSize * sendTypeSize) ∧
    ((actual_send cap old length).sent = 0 ↔ old = cap) ∧
    ((actual_send cap old length).sent = 0 →
      (actual_send cap old length).counter = old) := by
  have hpad := get_padded_length_spec length
  rw [← get_padded_length_eq_ceil length, actual_send_eq]
  by_cases hz : min (cap - old) (get_padded_length length) = 0
  · rw [if_pos hz]
    refine ⟨?_, ?_, ?_, fun _ => rfl⟩
    · show (0 : Nat) = min (min (cap - old) (get_padded_length length)) length
      omega
    · show old = old + min (cap - old) (get_padded_length length)
      omega
    · show (0 : Nat) = 0 ↔ old = cap
      omega
  · rw [if_neg hz]
    refine ⟨rfl, rfl, ?_, ?_⟩
    · show min (min (cap - old) (get_padded_length length)) length = 0 ↔ old = cap
      omega
    · show min (min (cap - old) (get_padded_length length)) length = 0 →
        old + min (cap - old) (get_padded_length length) = old
      omega

/-- Witness for C4 at `cap = 16`, `old = 8`, `length = 3`. -/
theorem C4_actual_send_contract_witness :
    0 < 3 ∧ 8 ≤ 16 ∧
    ((actual_send 16 8 3).sent =
      min (min (16 - 8) ((3 + (sendTypeSize - 1)) / sendTypeSize * sendTypeSize)) 3 ∧
    (actual_send 16 8 3).counter =
      8 + min (16 - 8) ((3 + (sendTypeSize - 1)) / sendTypeSize * sendTypeSize) ∧
    ((actual_send 16 8 3).sent = 0 ↔ (8 : Nat) = 16) ∧
    ((actual_send 16 8 3).sent = 0 → (actual_send 16 8 3).counter = 8)) :=
  ⟨by decide, by decide, C4_actual_send_contract 16 8 3 (by decide) (by decide)⟩

/-- Embedding of a staging loop of `mpi_comm::send` (the header loop
and the payload loop have identical shape): repeatedly call
`actual_send` on the remaining bytes, and when not everything was
written, `flush()`; per the flush model, the drained group's length
counter is reset to zero before the next stage.  `fuel` bounds the
number of iterations; `none` means the loop did not finish within
`fuel` iterations. -/
def sendLoop (cap : Nat) : Nat → Nat → Nat → Option Nat
  | 0, c, len => if len = 0 then some c else none
  | fuel + 1, c, len =>
    if len = 0 then some c
    else
      let r := actual_send cap c len
      let lenRemaining := len - r.sent
      if 0 < lenRemaining then sendLoop cap fuel 0 lenRemaining
      else some r.counter

/-- Embedding of `mpi_comm::send(targetmachine, data, length)` for one
target slot: stage the `sizeof(comm_header)`-byte header, flushing
between partial stages, then stage the `length` payload bytes the same
way.  The result is the final slot counter, or `none` when a loop ran
out of fuel. -/
def send (cap c length : Nat) : Option Nat :=
  (sendLoop cap (headerSize + 1) c headerSize).bind
    (fun c1 => sendLoop cap (length + 1) c1 length)

/-- After a flush has reset the slot counter to zero, a stage of a
nonempty remainder always makes strict progress when the per-peer
capacity is at least one element. -/
theorem actual_send_zero_progress (cap len : Nat)
    (hcap : sendTypeSize ≤ cap) (hlen : 0 < len) :
    0 < (actual_send cap 0 len).sent := by
  have hsts : sendTypeSize = 8 := rfl
  have hpad := get_padded_length_spec len
  rw [actual_send_eq]
  rw [if_neg (by omega)]
  show 0 < min (min (cap - 0) (get_padded_length len)) len
  omega

/-- A staging loop started right after a flush (counter zero) finishes
within `len` iterations. -/
theorem sendLoop_total_from_zero (cap : Nat) (hcap : sendTypeSize ≤ cap) :
    ∀ len fuel, len ≤ fuel → (sendLoop cap fuel 0 len).isSome := by
  intro len
  induction len using Nat.strong_induction_on with
  | _ len ih =>
    intro fuel hfuel
    cases len with
    | zero => cases fuel <;> simp [sendLoop]
    | succ l =>
      cases fuel with
      | zero => omega
      | succ f =>
        have hs := actual_send_zero_progress cap (l + 1) hcap (by omega)
        rw [sendLoop]
        rw [if_neg (by omega)]
        by_cases h0 : 0 < (l + 1) - (actual_send cap 0 (l + 1)).sent
        · rw [if_pos h0]
          exact ih ((l + 1) - (actual_send cap 0 (l + 1)).sent) (by omega) f
            (by omega)
        · rw [if_neg h0]
          rfl

/-- A staging loop started at an arbitrary counter finishes within
`len + 1` iterations: the first iteration either makes progress or
flushes, resetting the counter to zero. -/
theorem sendLoop_total (cap : Nat) (hcap : sendTypeSize ≤ cap)
    (c len : Nat) : (sendLoop cap (len + 1) c len).isSome := by
  cases len with
  | zero => simp [sendLoop]
  | succ l =>
    rw [sendLoop]
    rw [if_neg (by omega)]
    by_cases h0 : 0 < (l + 1) - (actual_send cap c (l + 1)).sent
    · rw [if_pos h0]
      exact sendLoop_total_from_zero cap hcap _ _ (by omega)
    · rw [if_neg h0]
      rfl

/-- The configuration requirement `W ≥ N·E` makes the per-peer
capacity at least one element. -/
theorem per_peer_capacity_ge (W N : Nat) (hN : 0 < N)
    (hW : N * sendTypeSize ≤ W) :
    sendTypeSize ≤ per_peer_capacity W N := by
  have hsts : sendTypeSize = 8 := rfl
  rw [hsts] at hW
  have h1 : 8 ≤ W / N := (Nat.le_div_iff_mul_le hN).mpr (by omega)
  have h2 : 1 ≤ W / N / 8 := (Nat.le_div_iff_mul_le (by omega)).mpr (by omega)
  unfold per_peer_capacity
  rw [hsts]
  omega

/-- Theorem C3: under the preconditions `W ≥ N·E` (hence
`per_peer_capacity ≥ E`) and `length > 0`, in the model where each
flush resets the drained group's counters to zero, every call to
`send` terminates: both the header loop and the payload loop finish
within their fuel. -/
theorem C3_send_terminates (W N c length : Nat)
    (hN : 0 < N) (hW : N * sendTypeSize ≤ W) (hlen : 0 < length) :
    (send (per_peer_capacity W N) c length).isSome := by
  have hcap := per_peer_capacity_ge W N hN hW
  have h1 := sendLoop_total (per_peer_capacity W N) hcap c headerSize
  rcases Option.isSome_iff_exists.mp h1 with ⟨c1, hc1⟩
  unfold send
  rw [hc1]
  exact sendLoop_total (per_peer_capacity W N) hcap c1 length

/-- Witness for C3 at `W = 16`, `N = 2`, start counter 0, `length = 5`. -/
theorem C3_send_terminates_witness :
    0 < 2 ∧ 2 * sendTypeSize ≤ 16 ∧ 0 < 5 ∧
    (send (per_peer_capacity 16 2) 0 5).isSome :=
  ⟨by decide, by decide, by decide,
   C3_send_terminates 16 2 0 5 (by decide) (by decide) (by decide)⟩

/-- The per-peer capacity is rounded to a multiple of the element
size. -/
theorem per_peer_capacity_mod (W N : Nat) :
    per_peer_capacity W N % sendTypeSize = 0 := by
  have hsts : sendTypeSize = 8 := rfl
  unfold per_peer_capacity
  rw [hsts]
  omega

/-- Operations that touch the two groups' send-length counters: a
successful `actual_send` reservation for one (group, target) slot, or
a `reset_send_buffer` zeroing one group. -/
inductive send_op (N : Nat) where
  | stage (g : Fin 2) (target : Fin N) (len : Nat)
  | reset (g : Fin 2)

/-- State transformer of a single send-length operation on the
`_sendlength[2][N]` counters. -/
def apply_send_op {N : Nat} (cap : Nat) (s : Fin 2 → Fin N → Nat) :
    send_op N → (Fin 2 → Fin N → Nat)
  | .stage g t len => fun g' t' =>
      if g' = g ∧ t' = t then (actual_send cap (s g t) len).counter
      else s g' t'
  | .reset g => fun g' t' => if g' = g then 0 else s g' t'

/-- Run a sequence of send-length operations from a counter state. -/
def run_send_ops {N : Nat} (cap : Nat) (s : Fin 2 → Fin N → Nat)
    (ops : List (send_op N)) : Fin 2 → Fin N → Nat :=
  ops.foldl (apply_send_op cap) s

/-- One reservation keeps a slot counter within capacity and a
multiple of the element size (the granted size is a multiple of 8
because the capacity and the padded length are). -/
theorem actual_send_counter_inv (cap old len : Nat) (hcap : cap % 8 = 0)
    (h1 : old ≤ cap) (h2 : old % 8 = 0) :
    (actual_send cap old len).counter ≤ cap ∧
    (actual_send cap old len).counter % 8 = 0 := by
  have hpad := get_padded_length_spec len
  rw [actual_send_eq]
  by_cases hz : min (cap - old) (get_padded_length len) = 0
  · rw [if_pos hz]
    exact ⟨h1, h2⟩
  · rw [if_neg hz]
    show old + min (cap - old) (get_padded_length len) ≤ cap ∧
         (old + min (cap - old) (get_padded_length len)) % 8 = 0
    omega

/-- The I1 invariant is inductive over any sequence of reservations
and resets. -/
theorem run_send_ops_inv {N : Nat} (cap : Nat) (hcap : cap % 8 = 0)
    (ops : List (send_op N)) :
    ∀ s : Fin 2 → Fin N → Nat,
      (∀ g t, s g t ≤ cap ∧ s g t % 8 = 0) →
      ∀ g t, run_send_ops cap s ops g t ≤ cap ∧
             run_send_ops cap s ops g t % 8 = 0 := by
  induction ops with
  | nil => intro s hs g t; exact hs g t
  | cons o rest ih =>
      intro s hs g t
      refine ih (apply_send_op cap s o) ?_ g t
      intro g' t'
      cases o with
      | stage g0 t0 len =>
          show (if g' = g0 ∧ t' = t0
                then (actual_send cap (s g0 t0) len).counter
                else s g' t') ≤ cap ∧
               (if g' = g0 ∧ t' = t0
                then (actual_send cap (s g0 t0) len).counter
                else s g' t') % 8 = 0
          split
          · exact actual_send_counter_inv cap (s g0 t0) len hcap
              (hs g0 t0).1 (hs g0 t0).2
          · exact hs g' t'
      | reset g0 =>
          show (if g' = g0 then 0 else s g' t') ≤ cap ∧
               (if g' = g0 then 0 else s g' t') % 8 = 0
          split
          · exact ⟨Nat.zero_le cap, rfl⟩
          · exact hs g' t'

/-- Theorem C5: invariant I1 holds in every state reachable from the
all-zero counters by reservations and resets: each slot counter stays
between 0 and `per_peer_capacity = floor(W/N/E)·E` and is a multiple
of E, so the `actual_flush` assertion that each drained length is a
multiple of `sizeof(send_type)` always holds. -/
theorem C5_I1_preserved (W N : Nat) (ops : List (send_op N))
    (g : Fin 2) (t : Fin N) :
    run_send_ops (per_peer_capacity W N) (fun _ _ => 0) ops g t ≤
      per_peer_capacity W N ∧
    run_send_ops (per_peer_capacity W N) (fun _ _ => 0) ops g t %
      sendTypeSize = 0 := by
  have hsts : sendTypeSize = 8 := rfl
  have hcap := per_peer_capacity_mod W N
  rw [hsts] at hcap ⊢
  exact run_send_ops_inv (per_peer_capacity W N) hcap ops
    (fun _ _ => 0) (fun _ _ => ⟨Nat.zero_le _, rfl⟩) g t

/-- Embedding of the `mpi_comm` object state touched by
`reset_send_buffer`: the two groups' length counters, an abstract
generation number per send window standing for the identity of its
mmap'd backing region (bumped whenever the window is unmapped and
remapped), the per-group garbage-collection timestamps (in ms), the
current-group selector, the receive buffers and the round-robin
cursor. -/
structure mpi_comm_state (N : Nat) where
  sendlength : Fin 2 → Fin N → Nat
  window_generation : Fin 2 → Nat
  last_garbage_collect_ms : Fin 2 → Nat
  cur_send_buffer : Nat
  receive_buffer : Fin N → receive_buffer_type
  last_receive_buffer_read_from : Nat

/-- Embedding of `mpi_comm::garbage_collect`: destroy and reconstruct
the send window of group `idx`, i.e. replace its backing region by a
fresh one (the generation number increases). -/
def garbage_collect {N : Nat} (s : mpi_comm_state N) (idx : Fin 2) :
    mpi_comm_state N :=
  { s with
    window_generation := fun g =>
      if g = idx then s.window_generation g + 1 else s.window_generation g }

/-- Embedding of `mpi_comm::reset_send_buffer`: zero all length
counters of group `idx`; then, when more than 10 000 ms have elapsed
since the group's last garbage collection, garbage-collect the window
and update the timestamp to the current time. -/
def reset_send_buffer {N : Nat} (s : mpi_comm_state N) (idx : Fin 2)
    (curtime : Nat) : mpi_comm_state N :=
  let s1 : mpi_comm_state N :=
    { s with
      sendlength := fun g t => if g = idx then 0 else s.sendlength g t }
  if 10000 < curtime - s1.last_garbage_collect_ms idx then
    let s2 := garbage_collect s1 idx
    { s2 with
      last_garbage_collect_ms := fun g =>
        if g = idx then curtime else s2.last_garbage_collect_ms g }
  else s1

/-- Theorem C8 (amended: the window is reclaimed when strictly more
than 10 000 ms have elapsed, not when at least 10 000 ms have): a
reset of group `idx` zeroes exactly that group's counters, reclaims
its window iff more than 10 000 ms elapsed since the group's last
reclamation, updates the timestamp exactly when reclamation occurs,
and leaves the other group's counters, window and timestamp, the
current-group selector, the receive buffers and the round-robin cursor
unchanged. -/
theorem C8_reset_send_buffer {N : Nat} (s : mpi_comm_state N) (idx : Fin 2)
    (curtime : Nat) (hts : s.last_garbage_collect_ms idx ≤ curtime) :
    (∀ t, (reset_send_buffer s idx curtime).sendlength idx t = 0) ∧
    (∀ g t, g ≠ idx →
      (reset_send_buffer s idx curtime).sendlength g t = s.sendlength g t) ∧
    ((reset_send_buffer s idx curtime).window_generation idx ≠
        s.window_generation idx ↔
      10000 < curtime - s.last_garbage_collect_ms idx) ∧
    (reset_send_buffer s idx curtime).last_garbage_collect_ms idx =
      (if 10000 < curtime - s.last_garbage_collect_ms idx then curtime
       else s.last_garbage_collect_ms idx) ∧
    (∀ g, g ≠ idx →
      (reset_send_buffer s idx curtime).window_generation g =
        s.window_generation g ∧
      (reset_send_buffer s idx curtime).last_garbage_collect_ms g =
        s.last_garbage_collect_ms g) ∧
    (reset_send_buffer s idx curtime).cur_send_buffer = s.cur_send_buffer ∧
    (∀ i, (reset_send_buffer s idx curtime).receive_buffer i =
      s.receive_buffer i) ∧
    (reset_send_buffer s idx curtime).last_receive_buffer_read_from =
      s.last_receive_buffer_read_from := by
  unfold reset_send_buffer garbage_collect
  by_cases hgc : 10000 < curtime - s.last_garbage_collect_ms idx
  all_goals
    refine ⟨fun t => ?_, fun g t hg => ?_, ?_, ?_, fun g hg => ⟨?_, ?_⟩, ?_,
      fun i => ?_, ?_⟩
  all_goals simp [hgc, *]

/-- Concrete one-peer comm state used to exercise `reset_send_buffer`:
both groups' counters hold 8 staged bytes, fresh windows, last
garbage collection at time 0. -/
def exampleCommState : mpi_comm_state 1 :=
  { sendlength := fun _ _ => 8
    window_generation := fun _ => 0
    last_garbage_collect_ms := fun _ => 0
    cur_send_buffer := 0
    receive_buffer := fun _ => receive_buffer_type.mk [] 0 0 0
    last_receive_buffer_read_from := 0 }

/-- Witness for C8 at group 0 of `exampleCommState`, reset at time
20 000 ms (so more than 10 000 ms elapsed and the window is
reclaimed). -/
theorem C8_reset_send_buffer_witness :
    exampleCommState.last_garbage_collect_ms 0 ≤ 20000 ∧
    ((∀ t, (reset_send_buffer exampleCommState 0 20000).sendlength 0 t = 0) ∧
     (∀ g t, g ≠ 0 →
       (reset_send_buffer exampleCommState 0 20000).sendlength g t =
         exampleCommState.sendlength g t) ∧
     ((reset_send_buffer exampleCommState 0 20000).window_generation 0 ≠
         exampleCommState.window_generation 0 ↔
       10000 < 20000 - exampleCommState.last_garbage_collect_ms 0) ∧
     (reset_send_buffer exampleCommState 0 20000).last_garbage_collect_ms 0 =
       (if 10000 < 20000 - exampleCommState.last_garbage_collect_ms 0
        then 20000 else exampleCommState.last_garbage_collect_ms 0) ∧
     (∀ g, g ≠ 0 →
       (reset_send_buffer exampleCommState 0 20000).window_generation g =
         exampleCommState.window_generation g ∧
       (reset_send_buffer exampleCommState 0 20000).last_garbage_collect_ms
           g =
         exampleCommState.last_garbage_collect_ms g) ∧
     (reset_send_buffer exampleCommState 0 20000).cur_send_buffer =
       exampleCommState.cur_send_buffer ∧
     (∀ i, (reset_send_buffer exampleCommState 0 20000).receive_buffer i =
       exampleCommState.receive_buffer i) ∧
     (reset_send_buffer exampleCommState 0 20000).last_receive_buffer_read_from =
       exampleCommState.last_receive_buffer_read_from) :=
  ⟨by decide, C8_reset_send_buffer exampleCommState 0 20000 (by decide)⟩

/-- Counterexample for C8 as stated: at time 10 000 ms with the last
reclamation at time 0, at least 10 seconds (exactly 10 000 ms) have
elapsed, yet the reset neither reclaims the window (its backing region
generation is unchanged) nor updates the timestamp, because the code
requires strictly more than 10 000 ms. -/
theorem C8_boundary_counterexample :
    10000 ≤ 10000 - exampleCommState.last_garbage_collect_ms 0 ∧
    (reset_send_buffer exampleCommState 0 10000).window_generation 0 =
      exampleCommState.window_generation 0 ∧
    (reset_send_buffer exampleCommState 0 10000).last_garbage_collect_ms 0 =
      exampleCommState.last_garbage_collect_ms 0 := by
  decide

/-- Embedding of the probe loop of
`mpi_comm::receive(int* sourcemachine, size_t* length)`: starting from
`i = _last_receive_buffer_read_from + 1`, sweep `j = 0, 1, …, size-1`
probing source `(j + i) % size`; on the first success return the
message, the source machine `(j + i) % size`, the new value the code
stores into `_last_receive_buffer_read_from` (namely `j`), and the
updated buffer map.  The remaining iteration count is the first
argument of the recursion. -/
def receive_any_loop (size : Nat) (bufs : Nat → receive_buffer_type)
    (i : Nat) :
    Nat → Nat →
      Option ((List Nat × Nat) × Nat × Nat × (Nat → receive_buffer_type))
  | 0, _ => none
  | fuel + 1, j =>
    match receive (bufs ((j + i) % size)) with
    | (some r, b1) =>
        some (r, (j + i) % size, j,
          Function.update bufs ((j + i) % size) b1)
    | (none, _) => receive_any_loop size bufs i fuel (j + 1)

/-- Embedding of the any-source
`mpi_comm::receive(int* sourcemachine, size_t* length)`: probe each
source once in rotation starting after the stored cursor. -/
def receive_any (size : Nat) (bufs : Nat → receive_buffer_type)
    (last_receive_buffer_read_from : Nat) :
    Option ((List Nat × Nat) × Nat × Nat × (Nat → receive_buffer_type)) :=
  receive_any_loop size bufs (last_receive_buffer_read_from + 1) size 0

/-- Concrete two-peer receive-buffer map: source 1 holds one complete
8-byte padded message of unpadded length 5; source 0 is empty. -/
def exampleAnyBufs : Nat → receive_buffer_type := fun n =>
  if n = 1 then receive_buffer_type.mk [7, 7, 7, 7, 7, 0, 0, 0] 8 5 8
  else receive_buffer_type.mk [] 0 0 0

/-- Theorem C1 (refuting the claim): with `size = 2`, cursor 0, and
only source 1 holding a message, the any-source receive succeeds and
consumes from source 1, but stores 0 (the sweep offset `j`) into
`_last_receive_buffer_read_from`, not the source index 1 the claim and
the spec describe. -/
theorem C1_cursor_is_loop_offset :
    (receive_any 2 exampleAnyBufs 0).map
        (fun r => (r.2.1, r.2.2.1)) = some (1, 0) ∧
    (1 : Nat) ≠ 0 :=
  ⟨rfl, by decide⟩

/-- Wire frame `send` stages for one message: the `comm_header` bytes
carrying the unpadded payload length, the payload, then the padding
bytes (whatever memory followed the caller's buffer) bringing the
payload up to `get_padded_length`. -/
def frame (payload pad : List Nat) : List Nat :=
  comm_header_bytes payload.length ++ payload ++ pad

/-- Concatenation of the frames of a sequence of (payload, pad)
pairs, in send order: the byte run delivered to the target's receive
buffer. -/
def joinFrames : List (List Nat × List Nat) → List Nat
  | [] => []
  | x :: rest => frame x.1 x.2 ++ joinFrames rest

/-- A message as `send` admits it: nonempty payload, length
representable in the `size_t` header, and padding of exactly the
padded-length excess. -/
def validMsg (x : List Nat × List Nat) : Prop :=
  0 < x.1.length ∧ x.1.length < 2 ^ 64 ∧
  x.2.length = get_padded_length x.1.length - x.1.length

instance validMsg_decidable (x : List Nat × List Nat) :
    Decidable (validMsg x) := by
  unfold validMsg
  exact inferInstance

/-- Repeatedly call `receive` on a buffer until it returns `none` (or
the fuel runs out), collecting the returned (bytes, reported length)
pairs in order. -/
def drainRecv : Nat → receive_buffer_type → List (List Nat × Nat)
  | 0, _ => []
  | fuel + 1, b =>
    match receive b with
    | (some r, b1) => r :: drainRecv fuel b1
    | (none, _) => []

/-- Receive-buffer state after the header of the first pending message
has been consumed: framing fields describe the first payload, and the
FIFO holds its padded bytes followed by the remaining frames. -/
def midState : List (List Nat × List Nat) → receive_buffer_type
  | [] => receive_buffer_type.mk [] 0 0 0
  | x :: rest =>
      receive_buffer_type.mk (x.1 ++ (x.2 ++ joinFrames rest))
        (x.1.length + x.2.length + (joinFrames rest).length)
        x.1.length (get_padded_length x.1.length)

/-- Length of the little-endian encoding. -/
theorem encodeLE_length (w n : Nat) : (encodeLE w n).length = w := by
  induction w generalizing n with
  | zero => rfl
  | succ w ih => simp [encodeLE, ih]

/-- Encode/decode round trip, modulo the encoded width. -/
theorem decodeLE_encodeLE (w n : Nat) :
    decodeLE (encodeLE w n) = n % 256 ^ w := by
  induction w generalizing n with
  | zero => simp [encodeLE, decodeLE, Nat.mod_one]
  | succ w ih =>
      show decodeLE (n % 256 :: encodeLE w (n / 256)) = n % 256 ^ (w + 1)
      rw [decodeLE, ih, pow_succ']
      exact Nat.mod_mul.symm

/-- A header length below `2^64` survives the `size_t` round trip. -/
theorem decodeLE_comm_header (n : Nat) (h : n < 2 ^ 64) :
    decodeLE (comm_header_bytes n) = n := by
  unfold comm_header_bytes headerSize
  rw [decodeLE_encodeLE]
  have h8 : (256 : Nat) ^ 8 = 2 ^ 64 := by norm_num
  rw [h8]
  exact Nat.mod_eq_of_lt h

/-- The header is `headerSize` bytes long. -/
theorem comm_header_bytes_length (n : Nat) :
    (comm_header_bytes n).length = headerSize :=
  encodeLE_length headerSize n

/-- Inserting a full frame sequence into a clean buffer and consuming
one header yields the `midState` of that sequence. -/
theorem locked_read_joinFrames (pp : List (List Nat × List Nat))
    (hv : ∀ x ∈ pp, validMsg x) :
    locked_read_header_from_buffer
      (receive_buffer_type.mk (joinFrames pp) (joinFrames pp).length 0 0) =
    midState pp := by
  cases pp with
  | nil =>
      show locked_read_header_from_buffer
        (receive_buffer_type.mk [] 0 0 0) = receive_buffer_type.mk [] 0 0 0
      unfold locked_read_header_from_buffer
      rw [if_neg (by simp [headerSize])]
  | cons x rest =>
      obtain ⟨h1, h2, h3⟩ := hv x (List.mem_cons_self x rest)
      have hlen8 : (comm_header_bytes x.1.length).length = headerSize :=
        comm_header_bytes_length _
      have hj : joinFrames (x :: rest) =
          comm_header_bytes x.1.length ++
            (x.1 ++ (x.2 ++ joinFrames rest)) := by
        simp [joinFrames, frame, List.append_assoc]
      rw [hj]
      have ht : (comm_header_bytes x.1.length ++
          (x.1 ++ (x.2 ++ joinFrames rest))).take headerSize =
          comm_header_bytes x.1.length := List.take_left' hlen8
      have hd : (comm_header_bytes x.1.length ++
          (x.1 ++ (x.2 ++ joinFrames rest))).drop headerSize =
          x.1 ++ (x.2 ++ joinFrames rest) := List.drop_left' hlen8
      unfold locked_read_header_from_buffer
      rw [if_pos ⟨rfl, by simp [List.length_append, hlen8]⟩]
      simp only [ht, hd, decodeLE_comm_header x.1.length h2, midState]
      simp [List.length_append, hlen8]
      omega

/-- Dequeuing from the `midState` of a nonempty message sequence
returns the first message's padded bytes and unpadded length, leaving
the `midState` of the remaining messages. -/
theorem receive_midState (x : List Nat × List Nat)
    (rest : List (List Nat × List Nat))
    (hx : validMsg x) (hrest : ∀ y ∈ rest, validMsg y) :
    receive (midState (x :: rest)) =
      (some (x.1 ++ x.2, x.1.length), midState rest) := by
  obtain ⟨h1, h2, h3⟩ := hx
  have hgp := get_padded_length_spec x.1.length
  have hpd : get_padded_length x.1.length = x.1.length + x.2.length := by
    omega
  simp only [midState]
  unfold receive
  rw [if_neg (by simp only []; omega)]
  rw [if_pos (by constructor <;> (simp only []; omega))]
  have hassoc : x.1 ++ (x.2 ++ joinFrames rest) =
      (x.1 ++ x.2) ++ joinFrames rest := (List.append_assoc x.1 x.2 _).symm
  have hlen12 : (x.1 ++ x.2).length = get_padded_length x.1.length := by
    simp [List.length_append]
    omega
  simp only [hassoc, List.take_left' hlen12, List.drop_left' hlen12]
  have hbl : x.1.length + x.2.length + (joinFrames rest).length -
      get_padded_length x.1.length = (joinFrames rest).length := by omega
  rw [hbl, locked_read_joinFrames rest hrest]
  rfl

/-- Draining the `midState` of a message sequence returns every
message's padded bytes and unpadded length, in order. -/
theorem drainRecv_midState (pp : List (List Nat × List Nat))
    (hv : ∀ x ∈ pp, validMsg x) :
    drainRecv (pp.length + 1) (midState pp) =
      pp.map (fun x => (x.1 ++ x.2, x.1.length)) := by
  induction pp with
  | nil => rfl
  | cons x rest ih =>
      have hx : validMsg x := hv x (List.mem_cons_self x rest)
      have hrest : ∀ y ∈ rest, validMsg y := fun y hy =>
        hv y (List.mem_cons_of_mem x hy)
      show drainRecv (rest.length + 1 + 1) (midState (x :: rest)) = _
      rw [drainRecv, receive_midState x rest hx hrest]
      simp only [List.map_cons]
      rw [ih hrest]

/-- Theorem C2: round-trip.  For every finite sequence of valid
messages (positive payload length, header-representable, padding of
exactly the padded excess), inserting the concatenated delivered
frame bytes into a clean receive buffer and repeatedly dequeuing until
`none` yields exactly the original payload byte sequences (the first
`length` bytes of each returned buffer) in the same order, each with
its original unpadded length reported. -/
theorem C2_round_trip (pp : List (List Nat × List Nat))
    (hv : ∀ x ∈ pp, validMsg x) :
    (drainRecv (pp.length + 1)
        (insert_receive_buffer (receive_buffer_type.mk [] 0 0 0)
          (joinFrames pp))).map (fun r => (r.1.take r.2, r.2)) =
      pp.map (fun x => (x.1, x.1.length)) := by
  have hins : insert_receive_buffer (receive_buffer_type.mk [] 0 0 0)
      (joinFrames pp) =
      locked_read_header_from_buffer
        (receive_buffer_type.mk (joinFrames pp) (joinFrames pp).length
          0 0) := by
    unfold insert_receive_buffer
    exact congrArg locked_read_header_from_buffer (by simp)
  rw [hins, locked_read_joinFrames pp hv, drainRecv_midState pp hv,
    List.map_map]
  refine List.map_congr_left ?_
  intro x hx
  show ((x.1 ++ x.2).take x.1.length, x.1.length) = (x.1, x.1.length)
  rw [List.take_left]

/-- Witness for C2 on two concrete messages of lengths 3 and 1. -/
theorem C2_round_trip_witness :
    (∀ x ∈ ([([1, 2, 3], [9, 9, 9, 9, 9]), ([4], [0, 0, 0, 0, 0, 0, 0])] :
        List (List Nat × List Nat)), validMsg x) ∧
    (drainRecv
        (([([1, 2, 3], [9, 9, 9, 9, 9]), ([4], [0, 0, 0, 0, 0, 0, 0])] :
          List (List Nat × List Nat)).length + 1)
        (insert_receive_buffer (receive_buffer_type.mk [] 0 0 0)
          (joinFrames
            [([1, 2, 3], [9, 9, 9, 9, 9]),
             ([4], [0, 0, 0, 0, 0, 0, 0])]))).map
        (fun r => (r.1.take r.2, r.2)) =
      ([([1, 2, 3], [9, 9, 9, 9, 9]), ([4], [0, 0, 0, 0, 0, 0, 0])] :
        List (List Nat × List Nat)).map (fun x => (x.1, x.1.length)) :=
  ⟨by decide,
   C2_round_trip
     [([1, 2, 3], [9, 9, 9, 9, 9]), ([4], [0, 0, 0, 0, 0, 0, 0])]
     (by decide)⟩
